import Mathlib

/-!
Verification of the Hikaya storyteller pipeline and narration dispatcher.

The definitions below are shallow embeddings of the Python sources
`improved_mcp_storyteller.py` and `voice_storyteller_server_fixed.py`:
pure functions over `String`, `List`, `Nat` and `Rat`.  Python floats are
modelled by rationals (`0.8` as `4/5`, expressed over naturals as
`5 * x < 4 * y` where the code compares `x < y * 0.8`), Python's
`random.choice` by an injected oracle of indices, and the remote Claude
generator by a `Bool` availability flag plus an `Option String` response.
-/

namespace Hikaya

/-! ## Text primitives shared by all components

Python `str.split()` (whitespace runs, no empty words), `" ".join`,
character slicing, `str.rfind('.')`, `str.lower()`, `str.title()` and
substring containment, all modelled on the character list underlying a
`String`. -/

/-- Python `str.split()` on a character list: `acc` holds the current word,
reversed. -/
def splitAux : List Char → List Char → List (List Char)
  | [], acc => if acc = [] then [] else [acc.reverse]
  | c :: cs, acc =>
    if c.isWhitespace then
      if acc = [] then splitAux cs [] else acc.reverse :: splitAux cs []
    else splitAux cs (c :: acc)

/-- Python `text.split()`. -/
def splitWords (s : String) : List String :=
  (splitAux s.data []).map String.mk

/-- Number of whitespace-separated words, i.e. `len(text.split())`. -/
def wordCount (s : String) : Nat :=
  (splitWords s).length

/-- Python `" ".join` on character lists. -/
def joinL : List (List Char) → List Char
  | [] => []
  | [w] => w
  | w :: v :: ws => w ++ ' ' :: joinL (v :: ws)

/-- Python `" ".join(words)`. -/
def joinWords (ws : List String) : String :=
  ⟨joinL (ws.map String.data)⟩

/-- Python slicing `s[:n]` (first `n` code points). -/
def strTake (s : String) (n : Nat) : String :=
  ⟨s.data.take n⟩

/-- Index of the last occurrence of `c`, or `none`: Python `s.rfind(c)`
with `-1` mapped to `none`. -/
def rfindCharL (c : Char) : List Char → Option Nat
  | [] => none
  | a :: as =>
    match rfindCharL c as with
    | some j => some (j + 1)
    | none => if a = c then some 0 else none

/-- Python `s.rfind('.')`, as an `Option Nat`. -/
def rfindDot (s : String) : Option Nat :=
  rfindCharL '.' s.data

/-- Python `s.lower()` (ASCII case folding). -/
def lowerStr (s : String) : String :=
  ⟨s.data.map Char.toLower⟩

/-- Whether `needle` occurs at the head of `hay`. -/
def leadMatch : List Char → List Char → Bool
  | [], _ => true
  | _ :: _, [] => false
  | a :: as, b :: bs => a == b && leadMatch as bs

/-- Python substring test `needle in hay`. -/
def containsSub (hay needle : String) : Bool :=
  (List.range (hay.data.length + 1)).any fun i => leadMatch needle.data (hay.data.drop i)

/-- Python `str.title()` worker: capitalize a letter that does not follow a
letter, lowercase the others.  The flag records whether the previous
character was a letter. -/
def titleL : List Char → Bool → List Char
  | [], _ => []
  | c :: cs, prevAlpha =>
    (if c.isAlpha then (if prevAlpha then c.toLower else c.toUpper) else c)
      :: titleL cs c.isAlpha

/-- Python `s.title()`. -/
def titleCase (s : String) : String :=
  ⟨titleL s.data false⟩

/-- Python `s.strip()` on character lists. -/
def stripL (l : List Char) : List Char :=
  ((l.dropWhile Char.isWhitespace).reverse.dropWhile Char.isWhitespace).reverse

/-! ### Lemmas about word splitting -/

theorem splitAux_good : ∀ (l acc : List Char),
    (∀ c ∈ acc, c.isWhitespace = false) →
    ∀ w ∈ splitAux l acc, w ≠ [] ∧ ∀ c ∈ w, c.isWhitespace = false := by
  intro l
  induction l with
  | nil =>
    intro acc hacc w hw
    by_cases h : acc = []
    · simp [splitAux, h] at hw
    · simp [splitAux, h] at hw
      subst hw
      refine ⟨by simpa using h, ?_⟩
      intro c hc
      exact hacc c (List.mem_reverse.mp hc)
  | cons c cs ih =>
    intro acc hacc w hw
    by_cases hws : c.isWhitespace
    · by_cases h : acc = []
      · rw [splitAux, if_pos hws, if_pos h] at hw
        exact ih [] (by simp) w hw
      · rw [splitAux, if_pos hws, if_neg h] at hw
        rcases List.mem_cons.mp hw with h1 | h1
        · subst h1
          refine ⟨by simpa using h, ?_⟩
          intro d hd
          exact hacc d (List.mem_reverse.mp hd)
        · exact ih [] (by simp) w h1
    · rw [splitAux, if_neg hws] at hw
      refine ih (c :: acc) ?_ w hw
      intro d hd
      rcases List.mem_cons.mp hd with h1 | h1
      · subst h1; simpa using hws
      · exact hacc d h1

theorem splitAux_append_word : ∀ (w : List Char),
    (∀ c ∈ w, c.isWhitespace = false) →
    ∀ (rest acc : List Char),
    splitAux (w ++ rest) acc = splitAux rest (w.reverse ++ acc) := by
  intro w
  induction w with
  | nil => intro _ rest acc; simp
  | cons c w' ih =>
    intro hw rest acc
    have hc : c.isWhitespace = false := hw c (List.mem_cons_self c w')
    have hw' : ∀ d ∈ w', d.isWhitespace = false := fun d hd => hw d (List.mem_cons_of_mem c hd)
    rw [List.cons_append, splitAux, if_neg (by simp [hc])]
    rw [ih hw' rest (c :: acc)]
    simp [List.reverse_cons, List.append_assoc]

theorem splitAux_acc_ne_nil : ∀ (l acc : List Char), acc ≠ [] → splitAux l acc ≠ [] := by
  intro l
  induction l with
  | nil => intro acc h; simp [splitAux, h]
  | cons c cs ih =>
    intro acc h
    by_cases hws : c.isWhitespace
    · rw [splitAux, if_pos hws, if_neg h]
      simp
    · rw [splitAux, if_neg hws]
      exact ih (c :: acc) (by simp)

theorem splitAux_join : ∀ (ws : List (List Char)),
    (∀ w ∈ ws, w ≠ [] ∧ ∀ c ∈ w, c.isWhitespace = false) →
    splitAux (joinL ws) [] = ws := by
  intro ws
  induction ws with
  | nil => intro _; rfl
  | cons w vs ih =>
    intro h
    have hw := h w (List.mem_cons_self w vs)
    have hvs : ∀ v ∈ vs, v ≠ [] ∧ ∀ c ∈ v, c.isWhitespace = false :=
      fun v hv => h v (List.mem_cons_of_mem w hv)
    cases vs with
    | nil =>
      have key : splitAux (w ++ []) [] = splitAux [] (w.reverse ++ []) :=
        splitAux_append_word w hw.2 [] []
      have hne : w.reverse ++ [] ≠ [] := by simpa using hw.1
      have key' : splitAux w [] = splitAux [] (w.reverse ++ []) := by simpa using key
      rw [joinL, key', splitAux, if_neg hne]
      simp
    | cons v vs' =>
      rw [joinL, splitAux_append_word w hw.2 (' ' :: joinL (v :: vs')) []]
      have hne : w.reverse ++ [] ≠ [] := by simpa using hw.1
      rw [splitAux, if_pos (by decide), if_neg hne]
      rw [ih hvs]
      simp

theorem splitAux_take_le : ∀ (l1 l2 acc : List Char),
    (splitAux l1 acc).length ≤ (splitAux (l1 ++ l2) acc).length := by
  intro l1
  induction l1 with
  | nil =>
    intro l2 acc
    by_cases h : acc = []
    · simp [splitAux, h]
    · rw [List.nil_append, splitAux, if_neg h]
      have := splitAux_acc_ne_nil l2 acc h
      have hpos : 0 < (splitAux l2 acc).length := List.length_pos.mpr this
      simpa using hpos
  | cons c cs ih =>
    intro l2 acc
    by_cases hws : c.isWhitespace
    · by_cases h : acc = []
      · rw [List.cons_append, splitAux, if_pos hws, if_pos h, splitAux, if_pos hws, if_pos h]
        exact ih l2 []
      · rw [List.cons_append, splitAux, if_pos hws, if_neg h, splitAux, if_pos hws, if_neg h]
        simpa using ih l2 []
    · rw [List.cons_append, splitAux, if_neg hws, splitAux, if_neg hws]
      exact ih l2 (c :: acc)

/-- Every word produced by `splitWords` is nonempty and whitespace-free. -/
theorem splitWords_good (s : String) :
    ∀ w ∈ splitWords s, w.data ≠ [] ∧ ∀ c ∈ w.data, c.isWhitespace = false := by
  intro w hw
  rcases List.mem_map.mp hw with ⟨l, hl, rfl⟩
  exact splitAux_good s.data [] (by simp) l hl

/-- Splitting a space-join of nonempty whitespace-free words recovers them. -/
theorem splitWords_joinWords (ws : List String)
    (h : ∀ w ∈ ws, w.data ≠ [] ∧ ∀ c ∈ w.data, c.isWhitespace = false) :
    splitWords (joinWords ws) = ws := by
  unfold splitWords joinWords
  rw [show (String.mk (joinL (ws.map String.data))).data = joinL (ws.map String.data) from rfl]
  rw [splitAux_join (ws.map String.data) ?_]
  · rw [List.map_map]
    have : (String.mk ∘ String.data) = id := by
      funext t; cases t; rfl
    simp [this]
  · intro w hw
    rcases List.mem_map.mp hw with ⟨t, ht, rfl⟩
    exact h t ht

theorem wordCount_joinWords (ws : List String)
    (h : ∀ w ∈ ws, w.data ≠ [] ∧ ∀ c ∈ w.data, c.isWhitespace = false) :
    wordCount (joinWords ws) = ws.length := by
  unfold wordCount
  rw [splitWords_joinWords ws h]

/-- A character-level cut never increases the word count. -/
theorem wordCount_strTake_le (s : String) (n : Nat) :
    wordCount (strTake s n) ≤ wordCount s := by
  unfold wordCount splitWords strTake
  have := splitAux_take_le (s.data.take n) (s.data.drop n) []
  rw [List.take_append_drop] at this
  simpa using this

/-! ## LengthAdjuster: `StoryGenerator._adjust_length` from
`improved_mcp_storyteller.py` (lines 557-584)

Overlong input is truncated to `target` words, then cut back to the last
period when `rfind` places it past `0.8 * target`; short input (below
`0.8 * target` words) is padded from a four-sentence pool drawn without
replacement, then truncated.  `random.choice` is modelled by an oracle of
indices, `0.8` by `4/5` over naturals. -/

/-- Nonempty, whitespace-free words: what `splitWords` always produces. -/
def GoodWords (ws : List String) : Prop :=
  ∀ w ∈ ws, w.data ≠ [] ∧ ∀ c ∈ w.data, c.isWhitespace = false

/-- The four extension sentences of `StoryGenerator._adjust_length`. -/
def lengthExtensions : List String :=
  ["The adventure taught everyone in the village about the importance of this valuable lesson.",
   "Friends and family gathered to celebrate this wonderful discovery.",
   "The story spread throughout the land, inspiring others to follow this example.",
   "Years later, people still remembered this amazing tale and shared it with their children."]

/-- The padding loop of `_adjust_length`: while the word list is short and
the pool is nonempty, append the words of an oracle-chosen pool sentence
and remove it from the pool.  The fuel equals the initial pool length, so
it runs out exactly when the pool does. -/
def padPool : Nat → List String → Nat → List String → List Nat → List String
  | 0, words, _, _, _ => words
  | fuel + 1, words, target, pool, oracle =>
    if words.length < target ∧ pool ≠ [] then
      padPool fuel (words ++ splitWords (pool.getD (oracle.headD 0 % pool.length) ""))
        target (pool.eraseIdx (oracle.headD 0 % pool.length)) oracle.tail
    else words

/-- The word-level truncation `" ".join(words[:target_length])`. -/
def truncAt (story : String) (target : Nat) : String :=
  joinWords ((splitWords story).take target)

/-- `StoryGenerator._adjust_length(story, target_length)` with the random
choices supplied by `oracle`. -/
def adjust_length (story : String) (target : Nat) (oracle : List Nat) : String :=
  let words := splitWords story
  if target < words.length then
    match rfindDot (truncAt story target) with
    | some p => if 4 * target < 5 * p then strTake (truncAt story target) (p + 1)
                else truncAt story target
    | none => truncAt story target
  else if 5 * words.length < 4 * target then
    joinWords ((padPool lengthExtensions.length words target lengthExtensions oracle).take target)
  else story

/-- Whether the overlong branch of `_adjust_length` takes the
sentence-boundary cut instead of the raw truncation. -/
def sentenceCutTaken (story : String) (target : Nat) : Bool :=
  if target < wordCount story then
    match rfindDot (truncAt story target) with
    | some p => decide (4 * target < 5 * p)
    | none => false
  else false

theorem padPool_good : ∀ (fuel : Nat) (words : List String) (target : Nat)
    (pool : List String) (oracle : List Nat), GoodWords words →
    GoodWords (padPool fuel words target pool oracle) := by
  intro fuel
  induction fuel with
  | zero => intro words _ _ _ h; exact h
  | succ n ih =>
    intro words target pool oracle h
    rw [padPool]
    by_cases hc : words.length < target ∧ pool ≠ []
    · rw [if_pos hc]
      apply ih
      intro w hw
      rcases List.mem_append.mp hw with h1 | h1
      · exact h w h1
      · exact splitWords_good _ w h1
    · rw [if_neg hc]; exact h

theorem wordCount_truncAt_le (story : String) (target : Nat) :
    wordCount (truncAt story target) ≤ target := by
  unfold truncAt
  rw [wordCount_joinWords _ (fun w hw => splitWords_good story w (List.take_subset _ _ hw))]
  simp [List.length_take]

theorem wordCount_truncAt (story : String) (target : Nat)
    (h : target ≤ wordCount story) : wordCount (truncAt story target) = target := by
  unfold truncAt
  rw [wordCount_joinWords _ (fun w hw => splitWords_good story w (List.take_subset _ _ hw))]
  rw [List.length_take]
  exact Nat.min_eq_left h

theorem adjust_length_wordCount_le (story : String) (target : Nat) (oracle : List Nat) :
    wordCount (adjust_length story target oracle) ≤ target := by
  unfold adjust_length
  by_cases h1 : target < (splitWords story).length
  · rw [if_pos h1]
    have htr : wordCount (truncAt story target) = target :=
      wordCount_truncAt story target (Nat.le_of_lt h1)
    cases hrf : rfindDot (truncAt story target) with
    | none => exact Nat.le_of_eq htr
    | some p =>
      show wordCount (if 4 * target < 5 * p then strTake (truncAt story target) (p + 1)
        else truncAt story target) ≤ target
      by_cases hp : 4 * target < 5 * p
      · rw [if_pos hp]
        calc wordCount (strTake (truncAt story target) (p + 1))
            ≤ wordCount (truncAt story target) := wordCount_strTake_le _ _
          _ = target := htr
      · rw [if_neg hp]
        exact Nat.le_of_eq htr
  · rw [if_neg h1]
    by_cases h2 : 5 * (splitWords story).length < 4 * target
    · rw [if_pos h2]
      rw [wordCount_joinWords _ ?_]
      · simp [List.length_take]
      · intro w hw
        refine padPool_good _ _ _ _ _ (splitWords_good story) w (List.take_subset _ _ hw)
    · rw [if_neg h2]
      exact Nat.le_of_not_lt h1

theorem adjust_length_exact (story : String) (target : Nat) (oracle : List Nat)
    (hge : target ≤ wordCount story) (hcut : sentenceCutTaken story target = false) :
    wordCount (adjust_length story target oracle) = target := by
  unfold adjust_length
  by_cases h1 : target < (splitWords story).length
  · rw [if_pos h1]
    have htr : wordCount (truncAt story target) = target :=
      wordCount_truncAt story target (Nat.le_of_lt h1)
    unfold sentenceCutTaken at hcut
    rw [if_pos (show target < wordCount story from h1)] at hcut
    cases hrf : rfindDot (truncAt story target) with
    | none => exact htr
    | some p =>
      rw [hrf] at hcut
      have hp : ¬(4 * target < 5 * p) := by simpa using hcut
      show wordCount (if 4 * target < 5 * p then strTake (truncAt story target) (p + 1)
        else truncAt story target) = target
      rw [if_neg hp]
      exact htr
  · rw [if_neg h1]
    have heq : (splitWords story).length = target :=
      Nat.le_antisymm (Nat.le_of_not_lt h1) hge
    have h2 : ¬(5 * (splitWords story).length < 4 * target) := by omega
    rw [if_neg h2]
    exact heq

/-- The overlong branch of `adjust` as claim C5 words it, for comparison
with the code: the cut is taken exactly when the period lies at or after
`0.8 * target_words` WORDS into the truncation (the code instead compares
the period's CHARACTER index against `0.8 * target_words`). -/
def adjust_spec_C5 (story : String) (target : Nat) : String :=
  match rfindDot (truncAt story target) with
  | some p =>
    if 4 * target ≤ 5 * wordCount (strTake (truncAt story target) p) then
      strTake (truncAt story target) (p + 1)
    else truncAt story target
  | none => truncAt story target

/-! ## Story generation: `HybridStoryAgent` from
`voice_storyteller_server_fixed.py` (lines 457-580)

The Claude generator is modelled by an availability flag and an optional
response string (Python's falsiness test on the response is the emptiness
test); `random.choice` in the basic length adjuster by an index oracle. -/

/-- The `Story` dataclass. -/
structure Story where
  title : String
  content : String
  moral : String
  length : Nat
  score : ℚ := 0
  agent_id : String := ""
  generation_method : String := "template"
deriving DecidableEq

/-- One entry of an agent's `templates` dict. -/
structure StoryTemplate where
  key : String
  title : String
  story : String
deriving DecidableEq

/-- An agent's identity and template table. -/
structure Agent where
  agent_id : String
  specialty : String
  story_type : String
  templates : List StoryTemplate
deriving DecidableEq

/-- Python `moral.lower() in templates` / `templates[moral.lower()]`. -/
def lookupTemplate (ts : List StoryTemplate) (key : String) : Option StoryTemplate :=
  ts.find? fun t => t.key == key

/-- `HybridStoryAgent._get_theme_expansions`. -/
def themeExpansions (story_type : String) : List String :=
  ["The " ++ story_type ++ " continued with new challenges.",
   "The character felt more confident with each step.",
   "Friends and allies appeared to offer help."]

/-- The padding loop of `_adjust_story_length_basic`: the pool is never
shrunk, so the loop stops only once enough words are present.  Each real
iteration adds at least one word, so `target` rounds of fuel are enough;
fuel exhaustion coincides with loop exit. -/
def padBasic : Nat → List String → Nat → List String → List Nat → List String
  | 0, words, _, _, _ => words
  | fuel + 1, words, target, pool, oracle =>
    if words.length < target ∧ pool ≠ [] then
      padBasic fuel (words ++ splitWords (pool.getD (oracle.headD 0 % pool.length) ""))
        target pool oracle.tail
    else words

/-- `HybridStoryAgent._adjust_story_length_basic(base_story, target_length)`. -/
def adjust_story_length_basic (story_type : String) (base : String) (target : Nat)
    (oracle : List Nat) : String :=
  let words := splitWords base
  if words.length < target then
    joinWords (padBasic target words target (themeExpansions story_type) oracle)
  else if target < words.length then
    joinWords (words.take target)
  else joinWords words

/-- `HybridStoryAgent._extract_or_generate_title(content, moral)`. -/
def extract_or_generate_title (content moral story_type : String) : String :=
  let firstLine := stripL (content.data.takeWhile fun c => c ≠ '\n')
  if firstLine.length < 50 ∧ firstLine.any Char.isUpper then ⟨firstLine⟩
  else "The " ++ titleCase moral ++ " " ++ titleCase story_type

/-- `HybridStoryAgent._generate_from_template`. -/
def generate_from_template (ag : Agent) (t : StoryTemplate) (moral : String)
    (target : Nat) (oracle : List Nat) : Story :=
  let content := adjust_story_length_basic ag.story_type t.story target oracle
  { title := t.title, content := content, moral := moral,
    length := wordCount content, agent_id := ag.agent_id,
    generation_method := "template" }

/-- `HybridStoryAgent._generate_fallback_story`: note it tags the result
`"template"`, not `"generic"`. -/
def generate_fallback_story (ag : Agent) (moral : String) (target : Nat)
    (oracle : List Nat) : Story :=
  let title := "The " ++ titleCase moral ++ " " ++ titleCase ag.story_type
  let base := "Once upon a time, a brave child learned the importance of " ++ moral ++
    " during an amazing " ++ ag.story_type ++
    ". Through challenges and friendship, they discovered that " ++ moral ++
    " makes every journey worthwhile."
  let content := adjust_story_length_basic ag.story_type base target oracle
  { title := title, content := content, moral := moral,
    length := wordCount content, agent_id := ag.agent_id,
    generation_method := "template" }

/-- `HybridStoryAgent.generate_story(moral, target_length)`.  `claude_avail`
is `self.claude.available`; `resp` the text Claude would return (`none`
for a failed call); Python's truthiness test on it is the `≠ ""` test. -/
def generate_story (ag : Agent) (claude_avail : Bool) (resp : Option String)
    (moral : String) (target : Nat) (oracle : List Nat) : Story :=
  match lookupTemplate ag.templates (lowerStr moral) with
  | some t =>
    let base := generate_from_template ag t moral target oracle
    if claude_avail ∧ 10 < ((base.length : ℤ) - (target : ℤ)).natAbs then
      match resp with
      | some c =>
        if c ≠ "" then
          { base with content := c, length := wordCount c, generation_method := "hybrid" }
        else base
      | none => base
    else base
  | none =>
    if claude_avail then
      match resp with
      | some c =>
        if c ≠ "" then
          { title := extract_or_generate_title c moral ag.story_type, content := c,
            moral := moral, length := wordCount c, agent_id := ag.agent_id,
            generation_method := "claude" }
        else generate_fallback_story ag moral target oracle
      | none => generate_fallback_story ag moral target oracle
    else generate_fallback_story ag moral target oracle

/-- The `EnhancedAdventureAgent` with its three templates. -/
def adventureAgent : Agent :=
  { agent_id := "adventure_agent", specialty := "Adventure Stories",
    story_type := "adventure",
    templates :=
      [{ key := "honesty", title := "The Truthful Treasure Hunter",
         story := "Maya found an old map leading to treasure. When her friend asked about it, she could have lied and kept it secret. But Maya chose to tell the truth and share the adventure. Together, they discovered that honesty made their friendship the greatest treasure of all." },
       { key := "kindness", title := "The Kind Knight\x27s Quest",
         story := "Sir Alex was on a quest to save the kingdom. Along the way, they met a lost dragon who was crying. Instead of fighting, Alex showed kindness and helped the dragon find its way home. The grateful dragon became Alex\x27s friend and helped save the kingdom together." },
       { key := "courage", title := "The Brave Little Explorer",
         story := "Sam was afraid of the dark forest, but their village needed medicine from the other side. Taking a deep breath, Sam found courage and ventured into the woods. With each brave step, the path became clearer, and Sam returned home a hero." }] }

/-! ## `StoryRanker.score_story` from `voice_storyteller_server_fixed.py`
(lines 584-621), with Python floats modelled by rationals. -/

/-- The length component: `max(0, 1 - |length - target| / max(target, 50))`. -/
def lengthScoreQ (len target : Nat) : ℚ :=
  max 0 (1 - ((((len : ℤ) - (target : ℤ)).natAbs : ℚ) / ((max target 50 : ℕ) : ℚ)))

/-- The moral-relevance component: fraction of the moral's lowercased words
occurring in the lowercased content, capped at 1, with the divisor guarded
by `max(len(moral_words), 1)`. -/
def moralScoreQ (story : Story) (moral : String) : ℚ :=
  let moral_words := splitWords (lowerStr moral)
  let content_lower := lowerStr story.content
  let moral_matches := (moral_words.filter fun w => containsSub content_lower w).length
  min 1 ((moral_matches : ℚ) / ((max moral_words.length 1 : ℕ) : ℚ))

/-- The four heuristic quality signals (0.3 + 0.3 + 0.2 + 0.2). -/
def qualityScoreQ (story : Story) : ℚ :=
  let content_lower := lowerStr story.content
  (if containsSub content_lower "once" || containsSub content_lower "story" ||
      containsSub content_lower "adventure" then (0.3 : ℚ) else 0) +
  (if containsSub content_lower "realized" || containsSub content_lower "understood" ||
      containsSub content_lower "learned" then (0.3 : ℚ) else 0) +
  (if story.content.data.contains '"' || containsSub content_lower "said" then (0.2 : ℚ)
   else 0) +
  (if 3 ≤ story.content.data.count '.' then (0.2 : ℚ) else 0)

/-- The generation-method bonus: `{"claude": 0.9, "hybrid": 0.8,
"template": 0.6}.get(method, 0.5)`. -/
def methodScoreQ (story : Story) : ℚ :=
  if story.generation_method == "claude" then 0.9
  else if story.generation_method == "hybrid" then 0.8
  else if story.generation_method == "template" then 0.6
  else 0.5

/-- `StoryRanker.score_story(story, target_length, moral)`. -/
def score_story (story : Story) (target : Nat) (moral : String) : ℚ :=
  min (lengthScoreQ story.length target * 0.35 + moralScoreQ story moral * 0.25 +
       min (qualityScoreQ story) 1 * 0.25 + methodScoreQ story * 0.15) 1

theorem lengthScoreQ_nonneg (len target : Nat) : 0 ≤ lengthScoreQ len target :=
  le_max_left 0 _

theorem moralScoreQ_nonneg (story : Story) (moral : String) :
    0 ≤ moralScoreQ story moral :=
  le_min (by norm_num) (div_nonneg (Nat.cast_nonneg _) (Nat.cast_nonneg _))

theorem qualityScoreQ_nonneg (story : Story) : 0 ≤ qualityScoreQ story := by
  unfold qualityScoreQ
  have h : ∀ (c : Prop) [Decidable c] (x : ℚ), 0 ≤ x → 0 ≤ (if c then x else 0) := by
    intro c _ x hx
    split
    · exact hx
    · exact le_refl 0
  refine add_nonneg (add_nonneg (add_nonneg ?_ ?_) ?_) ?_ <;>
    exact h _ _ (by norm_num)

theorem methodScoreQ_nonneg (story : Story) : 0 ≤ methodScoreQ story := by
  unfold methodScoreQ
  split_ifs <;> norm_num

theorem score_story_nonneg (story : Story) (target : Nat) (moral : String) :
    0 ≤ score_story story target moral := by
  unfold score_story
  refine le_min ?_ (by norm_num)
  have h1 := lengthScoreQ_nonneg story.length target
  have h2 := moralScoreQ_nonneg story moral
  have h3 : 0 ≤ min (qualityScoreQ story) 1 :=
    le_min (qualityScoreQ_nonneg story) (by norm_num)
  have h4 := methodScoreQ_nonneg story
  have w1 : (0:ℚ) ≤ 0.35 := by norm_num
  have w2 : (0:ℚ) ≤ 0.25 := by norm_num
  have w3 : (0:ℚ) ≤ 0.15 := by norm_num
  refine add_nonneg (add_nonneg (add_nonneg ?_ ?_) ?_) ?_ <;>
    exact mul_nonneg (by assumption) (by assumption)

/-! ## `EnhancedStorytellerPipeline.generate_story` (lines 631-650):
score every candidate, sort by score descending (Python's stable sort),
return the first. -/

/-- Attach ranker scores: `story.score = ranker.score_story(...)`. -/
def scoreStories (stories : List Story) (target : Nat) (moral : String) : List Story :=
  stories.map fun s => { s with score := score_story s target moral }

/-- One step of a stable descending insertion sort on `score`, the
specification of Python's `list.sort(key=score, reverse=True)`: an element
is placed before the first element whose score is not larger, so earlier
elements keep their position among equals. -/
def insertStory (s : Story) : List Story → List Story
  | [] => [s]
  | b :: l => if s.score < b.score then b :: insertStory s l else s :: b :: l

/-- Stable descending sort by `score`. -/
def sortStories : List Story → List Story
  | [] => []
  | x :: xs => insertStory x (sortStories xs)

/-- `stories.sort(...); winner = stories[0]`. -/
def selectWinner (l : List Story) : Option Story :=
  (sortStories l).head?

/-- The pipeline's selection among scored candidates. -/
def pipeline_select (candidates : List Story) (target : Nat) (moral : String) :
    Option Story :=
  selectWinner (scoreStories candidates target moral)

theorem insertStory_ne_nil (s : Story) (l : List Story) : insertStory s l ≠ [] := by
  cases l with
  | nil => simp [insertStory]
  | cons b t =>
    unfold insertStory
    split <;> simp

theorem sortStories_eq_nil {l : List Story} (h : sortStories l = []) : l = [] := by
  cases l with
  | nil => rfl
  | cons x xs => exact absurd h (insertStory_ne_nil x (sortStories xs))

/-- The selected story is the first among those of maximal score. -/
theorem selectWinner_first_max : ∀ (l : List Story) (w : Story),
    selectWinner l = some w →
    ∃ l1 l2, l = l1 ++ w :: l2 ∧ (∀ s ∈ l1, s.score < w.score) ∧
      ∀ s ∈ l, s.score ≤ w.score := by
  intro l
  induction l with
  | nil => intro w h; simp [selectWinner, sortStories] at h
  | cons x xs ih =>
    intro w h
    unfold selectWinner at h
    rw [sortStories] at h
    cases hs : sortStories xs with
    | nil =>
      have hxs : xs = [] := sortStories_eq_nil hs
      rw [hs] at h
      have hw : w = x := by simpa [insertStory] using h.symm
      subst hw hxs
      exact ⟨[], [], rfl, by simp, by simp⟩
    | cons b bs =>
      have hb : selectWinner xs = some b := by unfold selectWinner; rw [hs]; rfl
      obtain ⟨m1, m2, hxs, hm1, hall⟩ := ih b hb
      rw [hs] at h
      unfold insertStory at h
      by_cases hxb : x.score < b.score
      · rw [if_pos hxb] at h
        have hw : w = b := by simpa using h.symm
        subst hw
        refine ⟨x :: m1, m2, by rw [hxs]; simp, ?_, ?_⟩
        · intro s hsm
          rcases List.mem_cons.mp hsm with h1 | h1
          · subst h1; exact hxb
          · exact hm1 s h1
        · intro s hsm
          rcases List.mem_cons.mp hsm with h1 | h1
          · subst h1; exact le_of_lt hxb
          · exact hall s h1
      · rw [if_neg hxb] at h
        have hw : w = x := by simpa using h.symm
        subst hw
        refine ⟨[], xs, rfl, by simp, ?_⟩
        intro s hsm
        rcases List.mem_cons.mp hsm with h1 | h1
        · subst h1; exact le_refl _
        · exact le_trans (hall s h1) (le_of_not_lt hxb)

/-! ## Voice profiles and narration dispatch

`VoiceProfile` and `_create_voice_profiles` / `get_available_voices` from
`voice_storyteller_server_fixed.py` (lines 52-63, 175-233); the
`narrate_story` resolution logic from `improved_mcp_storyteller.py`
(lines 264-308).  Backend availability (the global `voice_engines` map)
is an explicit `String → Bool` parameter. -/

/-- The `VoiceProfile` dataclass. -/
structure VoiceProfile where
  id : String
  name : String
  engine : String
  language : String := "en"
  gender : String := "neutral"
  age_group : String := "adult"
  style : String := "friendly"
  speed : ℚ := 1
  pitch : ℚ := 1
deriving DecidableEq

/-- `VoiceNarrationEngine._create_voice_profiles` (fixed server): profiles
are created only for engines marked available, in insertion order. -/
def create_voice_profiles (avail : String → Bool) : List VoiceProfile :=
  (if avail "pyttsx3" then
    [{ id := "default_narrator", name := "Default Narrator", engine := "pyttsx3",
       style := "storyteller", speed := 0.85 },
     { id := "parent_voice", name := "Parent Voice", engine := "pyttsx3",
       style := "parent", speed := 0.8, pitch := 1.1 },
     { id := "child_voice", name := "Child Voice", engine := "pyttsx3",
       age_group := "child", speed := 1.1, pitch := 1.3 },
     { id := "wise_elder", name := "Wise Elder", engine := "pyttsx3",
       age_group := "elderly", speed := 0.7, pitch := 0.9 }]
   else []) ++
  (if avail "gtts" then
    [{ id := "gtts_storyteller", name := "Professional Storyteller", engine := "gtts",
       style := "storyteller" },
     { id := "gtts_friendly", name := "Friendly Voice", engine := "gtts",
       style := "friendly" }]
   else []) ++
  (if avail "edge_tts" then
    [{ id := "edge_jenny", name := "Jenny (US Female)", engine := "edge_tts",
       gender := "female", style := "friendly" },
     { id := "edge_guy", name := "Guy (US Male)", engine := "edge_tts",
       gender := "male", style := "storyteller" },
     { id := "edge_aria", name := "Aria (US Female)", engine := "edge_tts",
       gender := "female", style := "parent" },
     { id := "edge_davis", name := "Davis (US Male)", engine := "edge_tts",
       gender := "male", style := "friendly" }]
   else [])

/-- One entry of the `get_available_voices` listing. -/
structure VoiceEntry where
  id : String
  name : String
  style : String
  gender : String
  age_group : String
  engine : String
  available : Bool
deriving DecidableEq

/-- The entries emitted by `get_available_voices` (grouping by engine is a
reshuffle of this list and preserves the set of entries): each profile is
listed with `available = voice_engines.get(profile.engine, False)`. -/
def voiceEntriesOf (profiles : List VoiceProfile) (avail : String → Bool) :
    List VoiceEntry :=
  profiles.map fun p =>
    { id := p.id, name := p.name, style := p.style, gender := p.gender,
      age_group := p.age_group, engine := p.engine, available := avail p.engine }

/-- The observable outcome of one `narrate_story` call: an error envelope
(`success: False`, no audio artifact) or a dispatch to one backend with the
resolved profile. -/
inductive NarrationOutcome where
  | failure (msg : String) : NarrationOutcome
  | dispatched (engine : String) (profile : VoiceProfile) : NarrationOutcome
deriving DecidableEq

/-- The backend dispatch of `narrate_story` (improved server, lines
294-305): one engine attempted, guarded by its availability flag. -/
def dispatch_engine (avail : String → Bool) (p : VoiceProfile) : NarrationOutcome :=
  if p.engine == "pyttsx3" && avail "pyttsx3" then .dispatched "pyttsx3" p
  else if p.engine == "gtts" && avail "gtts" then .dispatched "gtts" p
  else if p.engine == "edge_tts" && avail "edge_tts" then .dispatched "edge_tts" p
  else .failure ("Engine " ++ p.engine ++ " not available")

/-- `VoiceNarrationEngine.narrate_story(text, voice_id)` voice resolution
(improved server, lines 264-308).  A known `voice_id` is used as-is; an
unknown one falls back to the first profile whose engine is available. -/
def narrate_story (profiles : List VoiceProfile) (avail : String → Bool)
    (voice_id : String) : NarrationOutcome :=
  if profiles.isEmpty then .failure "No voice profiles available"
  else
    match profiles.find? (fun p => p.id == voice_id) with
    | some profile => dispatch_engine avail profile
    | none =>
      match (profiles.filter fun p => avail p.engine).head? with
      | none => .failure "No working voice engines available"
      | some profile => dispatch_engine avail profile

/-- The audio artifact path of `_narrate_pyttsx3` in the fixed server
(line 283): `os.path.join(temp_dir, "story_" + profile.id + ".wav")`.  The
narrated text is a parameter of the call but does not enter the name. -/
def narrate_pyttsx3_audio_file (temp_dir _text : String) (profile : VoiceProfile) :
    String :=
  temp_dir ++ "/" ++ ("story_" ++ profile.id ++ ".wav")

/-- The audio artifact path of `_narrate_gtts` in the fixed server
(line 314). -/
def narrate_gtts_audio_file (temp_dir _text : String) (profile : VoiceProfile) :
    String :=
  temp_dir ++ "/" ++ ("story_" ++ profile.id ++ ".mp3")

/-- `find?` by id returns exactly the member with that id when ids are
duplicate-free (the registry is a Python dict keyed by id). -/
theorem find?_id_eq_some : ∀ (profiles : List VoiceProfile) (p : VoiceProfile)
    (vid : String), (profiles.map VoiceProfile.id).Nodup → p ∈ profiles → p.id = vid →
    profiles.find? (fun q => q.id == vid) = some p := by
  intro profiles
  induction profiles with
  | nil => intro p vid _ hp _; simp at hp
  | cons q rest ih =>
    intro p vid hnd hp hid
    rw [List.map_cons, List.nodup_cons] at hnd
    rcases List.mem_cons.mp hp with h1 | h1
    · subst h1
      exact List.find?_cons_of_pos _ (by simp [hid])
    · have hqr : q.id ≠ vid := by
        intro hq
        refine hnd.1 ?_
        rw [hq, ← hid]
        exact List.mem_map_of_mem VoiceProfile.id h1
      rw [List.find?_cons_of_neg _ (by simp [hqr])]
      exact ih p vid hnd.2 h1 hid

/-- Every profile the fixed server creates targets an engine that was
available at creation time. -/
theorem create_voice_profiles_avail (avail : String → Bool) :
    ∀ p ∈ create_voice_profiles avail, avail p.engine = true := by
  have key : ∀ (p : VoiceProfile) (e : String) (L : List VoiceProfile),
      p ∈ (if avail e = true then L else []) → (∀ q ∈ L, q.engine = e) →
      avail p.engine = true := by
    intro p e L hm hL
    by_cases h : avail e = true
    · rw [if_pos h] at hm
      rw [hL p hm]
      exact h
    · rw [if_neg h] at hm
      simp at hm
  intro p hp
  unfold create_voice_profiles at hp
  rcases List.mem_append.mp hp with hp' | hp'
  · rcases List.mem_append.mp hp' with hp2 | hp2
    · exact key p "pyttsx3" _ hp2 (by intro q hq; fin_cases hq <;> rfl)
    · exact key p "gtts" _ hp2 (by intro q hq; fin_cases hq <;> rfl)
  · exact key p "edge_tts" _ hp' (by intro q hq; fin_cases hq <;> rfl)

/-- Cancelling a common middle in `u ++ (v ++ a ++ w)` path names. -/
theorem append_mid_inj (u v w : String) {a b : String}
    (h : u ++ (v ++ a ++ w) = u ++ (v ++ b ++ w)) : a = b := by
  have h' := congrArg String.data h
  simp only [String.data_append, List.append_assoc] at h'
  exact String.ext (List.append_cancel_right
    (List.append_cancel_left (List.append_cancel_left h')))

end Hikaya

open Hikaya

/-- C7: `StoryRanker.score_story` is the clamped weighted sum of the length
fit (0.35), the capped moral-word match fraction (0.25), the capped
four-signal heuristic quality (0.25) and the generation-method bonus
(0.15, with 0.9 for claude, 0.8 for hybrid, 0.6 for template, 0.5
otherwise); it is a pure function whose value always lies in [0, 1]. -/
theorem spec_C7 (story : Story) (target : Nat) (moral : String) :
    (0 ≤ score_story story target moral ∧ score_story story target moral ≤ 1) ∧
    score_story story target moral =
      min 1 (0.35 * lengthScoreQ story.length target + 0.25 * moralScoreQ story moral +
        0.25 * min (qualityScoreQ story) 1 + 0.15 * methodScoreQ story) ∧
    methodScoreQ { story with generation_method := "claude" } = 0.9 ∧
    methodScoreQ { story with generation_method := "hybrid" } = 0.8 ∧
    methodScoreQ { story with generation_method := "template" } = 0.6 ∧
    methodScoreQ { story with generation_method := "generic" } = 0.5 := by
  refine ⟨⟨score_story_nonneg story target moral, min_le_right _ _⟩, ?_, rfl, rfl, rfl, rfl⟩
  unfold score_story
  rw [min_comm]
  congr 1
  ring

/-- C10: `score_story` is total for an empty moral: the divisor is guarded
by `max(len(moral_words), 1)`, the moral-relevance component is 0, and the
score reduces to the remaining three weighted components. -/
theorem spec_C10 (story : Story) (target : Nat) :
    moralScoreQ story "" = 0 ∧
    score_story story target "" =
      min (lengthScoreQ story.length target * 0.35 +
        min (qualityScoreQ story) 1 * 0.25 + methodScoreQ story * 0.15) 1 := by
  have hm : moralScoreQ story "" = 0 := by
    have hsplit : splitWords (lowerStr "") = [] := rfl
    unfold moralScoreQ
    rw [hsplit]
    norm_num
  refine ⟨hm, ?_⟩
  unfold score_story
  rw [hm]
  congr 1
  ring

/-- C8: the pipeline returns the scored candidate with the highest score,
and among candidates sharing the maximal score the winner is the one from
the earliest-registered agent (every candidate strictly before the winner
in registration order scores strictly lower). -/
theorem spec_C8 (candidates : List Story) (target : Nat) (moral : String) (w : Story)
    (h : pipeline_select candidates target moral = some w) :
    w ∈ scoreStories candidates target moral ∧
    (∀ s ∈ scoreStories candidates target moral, s.score ≤ w.score) ∧
    ∃ l1 l2, scoreStories candidates target moral = l1 ++ w :: l2 ∧
      ∀ s ∈ l1, s.score < w.score := by
  obtain ⟨l1, l2, hdec, hlt, hle⟩ := selectWinner_first_max _ w h
  refine ⟨?_, hle, l1, l2, hdec, hlt⟩
  rw [hdec]
  exact List.mem_append_right _ (List.mem_cons_self _ _)

/-- First witness candidate for C8: two identically scoring stories from
two agents. -/
def c8cand1 : Story :=
  { title := "t1", content := "", moral := "x", length := 10, agent_id := "a1" }

/-- Second witness candidate for C8. -/
def c8cand2 : Story :=
  { title := "t2", content := "", moral := "x", length := 10, agent_id := "a2" }

/-- The scored first candidate, which must win the tie. -/
def c8winner : Story := { c8cand1 with score := score_story c8cand1 10 "x" }

theorem spec_C8_witness :
    pipeline_select [c8cand1, c8cand2] 10 "x" = some c8winner ∧
    c8winner ∈ scoreStories [c8cand1, c8cand2] 10 "x" ∧
    ∀ s ∈ scoreStories [c8cand1, c8cand2] 10 "x", s.score ≤ c8winner.score := by
  have hlt : ¬ (score_story c8cand1 10 "x" < score_story c8cand2 10 "x") := by
    have heq : score_story c8cand2 10 "x" = score_story c8cand1 10 "x" := rfl
    rw [heq]
    exact lt_irrefl _
  have h : pipeline_select [c8cand1, c8cand2] 10 "x" = some c8winner := by
    show selectWinner (scoreStories [c8cand1, c8cand2] 10 "x") = some c8winner
    simp only [scoreStories, List.map, selectWinner, sortStories, insertStory]
    rw [if_neg hlt]
    rfl
  exact ⟨h, (spec_C8 [c8cand1, c8cand2] 10 "x" c8winner h).1,
    (spec_C8 [c8cand1, c8cand2] 10 "x" c8winner h).2.1⟩

/-- C1 fails as stated: with no matching template and no Claude response,
`HybridStoryAgent.generate_story` does return a `Story`, but its
`generation_method` is `"template"` (the fallback reuses the template
construction), not `"generic"`.  Witnessed at moral `"patience"`. -/
theorem spec_C1_counterexample :
    lookupTemplate adventureAgent.templates (lowerStr "patience") = none ∧
    (generate_story adventureAgent false none "patience" 20 []).generation_method
      = "template" ∧
    (generate_story adventureAgent false none "patience" 20 []).generation_method
      ≠ "generic" := by decide

/-- C1 amended: for every moral and target_length, when no template matches
the moral and the Claude generator is unavailable or returns nothing,
`HybridStoryAgent.generate_story` still returns a `Story` (the fallback
story), and that Story's `generation_method` field equals `"template"`. -/
theorem spec_C1_amended (moral : String) (target : Nat) (oracle : List Nat)
    (claude_avail : Bool)
    (hno : lookupTemplate adventureAgent.templates (lowerStr moral) = none) :
    generate_story adventureAgent claude_avail none moral target oracle =
      generate_fallback_story adventureAgent moral target oracle ∧
    (generate_story adventureAgent claude_avail none moral target oracle).generation_method
      = "template" := by
  have h1 : generate_story adventureAgent claude_avail none moral target oracle =
      generate_fallback_story adventureAgent moral target oracle := by
    unfold generate_story
    rw [hno]
    cases claude_avail <;> rfl
  exact ⟨h1, by rw [h1]; rfl⟩

theorem spec_C1_witness :
    lookupTemplate adventureAgent.templates (lowerStr "tidiness") = none ∧
    generate_story adventureAgent true none "tidiness" 30 [] =
      generate_fallback_story adventureAgent "tidiness" 30 [] ∧
    (generate_story adventureAgent true none "tidiness" 30 []).generation_method
      = "template" :=
  ⟨by decide, (spec_C1_amended "tidiness" 30 [] true (by decide)).1,
   (spec_C1_amended "tidiness" 30 [] true (by decide)).2⟩

/-- C4: for every text and every target with target ≥ 1, the word count of
`LengthAdjuster.adjust(text, target)` is at most `target`; when the input
already has at least `target` words the result has exactly `target` words
unless a sentence-boundary cut was taken, in which case it has at most
`target` words. -/
theorem spec_C4 (story : String) (target : Nat) (oracle : List Nat)
    (htarget : 1 ≤ target) :
    wordCount (adjust_length story target oracle) ≤ target ∧
    (target ≤ wordCount story → sentenceCutTaken story target = false →
      wordCount (adjust_length story target oracle) = target) ∧
    (target ≤ wordCount story →
      wordCount (adjust_length story target oracle) ≤ target) :=
  ⟨adjust_length_wordCount_le story target oracle,
   fun hge hcut => adjust_length_exact story target oracle hge hcut,
   fun _ => adjust_length_wordCount_le story target oracle⟩

theorem spec_C4_witness :
    (1 ≤ 2 ∧ 2 ≤ wordCount "a b c" ∧ sentenceCutTaken "a b c" 2 = false) ∧
    wordCount (adjust_length "a b c" 2 []) ≤ 2 ∧
    wordCount (adjust_length "a b c" 2 []) = 2 :=
  ⟨by decide, (spec_C4 "a b c" 2 [] (by decide)).1,
   (spec_C4 "a b c" 2 [] (by decide)).2.1 (by decide) (by decide)⟩

/-- C5 fails as stated: the code compares the character index returned by
`rfind('.')` against `0.8 * target_words`, not the period's word position.
Here the last period sits at character index 9 of the truncation but only
one word in, so with `target = 10` the code cuts (9 > 8) while the claim
says the cut requires the period to lie at least 8 words in. -/
theorem spec_C5_counterexample :
    10 < wordCount "aaaaaaaaa. b c d e f g h i j k" ∧
    adjust_length "aaaaaaaaa. b c d e f g h i j k" 10 [] = "aaaaaaaaa." ∧
    adjust_spec_C5 "aaaaaaaaa. b c d e f g h i j k" 10 =
      "aaaaaaaaa. b c d e f g h i j" ∧
    adjust_spec_C5 "aaaaaaaaa. b c d e f g h i j k" 10 ≠
      adjust_length "aaaaaaaaa. b c d e f g h i j k" 10 [] := by decide

/-- C5 amended: on input with more than `target` words, `adjust` first
truncates to exactly `target` words; it cuts at the last period (keeping
the terminator) exactly when the period's character index `p` within the
truncation satisfies `p > 0.8 * target` (as naturals, `5 * p > 4 * target`),
and otherwise returns the raw word-level truncation. -/
theorem spec_C5_amended (story : String) (target : Nat) (oracle : List Nat)
    (h : target < wordCount story) :
    wordCount (truncAt story target) = target ∧
    (rfindDot (truncAt story target) = none →
      adjust_length story target oracle = truncAt story target) ∧
    (∀ p, rfindDot (truncAt story target) = some p → 4 * target < 5 * p →
      adjust_length story target oracle = strTake (truncAt story target) (p + 1)) ∧
    (∀ p, rfindDot (truncAt story target) = some p → ¬(4 * target < 5 * p) →
      adjust_length story target oracle = truncAt story target) := by
  have h1 : target < (splitWords story).length := h
  refine ⟨wordCount_truncAt story target (Nat.le_of_lt h), ?_, ?_, ?_⟩
  · intro hrf
    unfold adjust_length
    rw [if_pos h1, hrf]
  · intro p hrf hp
    unfold adjust_length
    rw [if_pos h1, hrf]
    show (if 4 * target < 5 * p then strTake (truncAt story target) (p + 1)
      else truncAt story target) = _
    rw [if_pos hp]
  · intro p hrf hp
    unfold adjust_length
    rw [if_pos h1, hrf]
    show (if 4 * target < 5 * p then strTake (truncAt story target) (p + 1)
      else truncAt story target) = _
    rw [if_neg hp]

theorem spec_C5_amended_witness :
    (10 < wordCount "aaaaaaaaa. b c d e f g h i j k") ∧
    adjust_length "aaaaaaaaa. b c d e f g h i j k" 10 [] =
      strTake (truncAt "aaaaaaaaa. b c d e f g h i j k" 10) 10 :=
  ⟨by decide,
   (spec_C5_amended "aaaaaaaaa. b c d e f g h i j k" 10 [] (by decide)).2.2.1 9
     (by decide) (by decide)⟩

/-- C9: adjusting a text whose word count already lies within
`[0.8 * target, target]` returns it unchanged. -/
theorem spec_C9 (story : String) (target : Nat) (oracle : List Nat)
    (hlo : 4 * target ≤ 5 * wordCount story) (hhi : wordCount story ≤ target) :
    adjust_length story target oracle = story := by
  have hl : (splitWords story).length = wordCount story := rfl
  unfold adjust_length
  rw [if_neg (by omega), if_neg (by omega)]

theorem spec_C9_witness :
    (4 * 5 ≤ 5 * wordCount "a b c d" ∧ wordCount "a b c d" ≤ 5) ∧
    adjust_length "a b c d" 5 [] = "a b c d" :=
  ⟨by decide, spec_C9 "a b c d" 5 [] (by decide) (by decide)⟩


/-- Registry used by the C2 counterexample: a pyttsx3 profile and a gtts
profile, as the improved server creates when both engines import, with
pyttsx3 marked unavailable afterwards (its post-creation probe can fail). -/
def c2profiles : List VoiceProfile :=
  [{ id := "narrator", name := "Story Narrator", engine := "pyttsx3",
     style := "storyteller", speed := 0.85 },
   { id := "gtts_narrator", name := "Professional Narrator", engine := "gtts" }]

/-- Availability map with only gtts working. -/
def c2avail : String → Bool := fun e => e == "gtts"

/-- Availability map with no engine working. -/
def c2availNone : String → Bool := fun _ => false

/-- C2 fails as stated: `voice_id = "narrator"` names a known profile whose
backend is down while the gtts profile's backend is up, yet `narrate_story`
returns an error result instead of falling back to the available profile. -/
theorem spec_C2_counterexample :
    narrate_story c2profiles c2avail "narrator" =
      .failure "Engine pyttsx3 not available" ∧
    (c2profiles.filter fun p => c2avail p.engine) ≠ [] := by decide

/-- C2 amended: a known `voice_id` is always resolved to its own profile,
and when that profile's backend is unavailable the call returns an error
result without falling back; only an unknown `voice_id` falls back to the
first profile (in registry order) whose backend is available; an unknown
`voice_id` with no available backend yields an error result with no audio
artifact, without raising. -/
theorem spec_C2_amended (profiles : List VoiceProfile) (avail : String → Bool)
    (vid : String) (hnd : (profiles.map VoiceProfile.id).Nodup) :
    (∀ p ∈ profiles, p.id = vid →
      narrate_story profiles avail vid = dispatch_engine avail p) ∧
    ((∀ p ∈ profiles, p.id ≠ vid) →
      ∀ r, (profiles.filter fun p => avail p.engine).head? = some r →
        narrate_story profiles avail vid = dispatch_engine avail r) ∧
    ((∀ p ∈ profiles, p.id ≠ vid) → (∀ p ∈ profiles, avail p.engine = false) →
      profiles ≠ [] →
      narrate_story profiles avail vid = .failure "No working voice engines available") ∧
    (profiles = [] →
      narrate_story profiles avail vid = .failure "No voice profiles available") ∧
    (∀ p, avail p.engine = false →
      dispatch_engine avail p = .failure ("Engine " ++ p.engine ++ " not available")) := by
  refine ⟨?_, ?_, ?_, ?_, ?_⟩
  · intro p hp hid
    have hne : profiles ≠ [] := by
      intro h
      rw [h] at hp
      simp at hp
    unfold narrate_story
    rw [if_neg (by simp [List.isEmpty_iff, hne])]
    rw [find?_id_eq_some profiles p vid hnd hp hid]
  · intro hall r hr
    have hne : profiles ≠ [] := by
      intro h
      rw [h] at hr
      simp at hr
    have hfind : profiles.find? (fun p => p.id == vid) = none :=
      List.find?_eq_none.mpr fun p hp => by simp [hall p hp]
    unfold narrate_story
    rw [if_neg (by simp [List.isEmpty_iff, hne]), hfind, hr]
  · intro hall hnoav hne
    have hfind : profiles.find? (fun p => p.id == vid) = none :=
      List.find?_eq_none.mpr fun p hp => by simp [hall p hp]
    have hfil : (profiles.filter fun p => avail p.engine) = [] :=
      List.filter_eq_nil_iff.mpr fun p hp => by simp [hnoav p hp]
    unfold narrate_story
    rw [if_neg (by simp [List.isEmpty_iff, hne]), hfind, hfil]
    rfl
  · intro h
    subst h
    rfl
  · intro p hav
    have h1 : (p.engine == "pyttsx3" && avail "pyttsx3") = false := by
      cases hb : p.engine == "pyttsx3" with
      | false => rfl
      | true =>
        have hpe : p.engine = "pyttsx3" := eq_of_beq hb
        rw [Bool.true_and, ← hpe, hav]
    have h2 : (p.engine == "gtts" && avail "gtts") = false := by
      cases hb : p.engine == "gtts" with
      | false => rfl
      | true =>
        have hpe : p.engine = "gtts" := eq_of_beq hb
        rw [Bool.true_and, ← hpe, hav]
    have h3 : (p.engine == "edge_tts" && avail "edge_tts") = false := by
      cases hb : p.engine == "edge_tts" with
      | false => rfl
      | true =>
        have hpe : p.engine = "edge_tts" := eq_of_beq hb
        rw [Bool.true_and, ← hpe, hav]
    simp [dispatch_engine, h1, h2, h3]

theorem spec_C2_amended_witness :
    ((c2profiles.map VoiceProfile.id).Nodup ∧ (∀ p ∈ c2profiles, p.id ≠ "zzz") ∧
      (∀ p ∈ c2profiles, c2availNone p.engine = false) ∧ c2profiles ≠ []) ∧
    narrate_story c2profiles c2availNone "zzz" =
      .failure "No working voice engines available" :=
  ⟨by decide, (spec_C2_amended c2profiles c2availNone "zzz" (by decide)).2.2.1
    (by decide) (by decide) (by decide)⟩

/-- C3 fails as stated: with every backend unavailable no profile is
created at all, so `list_voices()` returns an empty catalogue rather than
the full static list flagged unavailable (with all backends up the
catalogue has 10 profiles). -/
theorem spec_C3_counterexample :
    create_voice_profiles (fun _ => false) = [] ∧
    voiceEntriesOf (create_voice_profiles fun _ => false) (fun _ => false) = [] ∧
    (create_voice_profiles fun _ => true).length = 10 := by decide

/-- C3 amended: profiles exist only for backends available at creation
time, so with every backend unavailable `list_voices()` returns an empty
catalogue; each listed entry is flagged with its backend's current
availability, which at creation time is `true` for every created
profile. -/
theorem spec_C3_amended (avail : String → Bool) :
    (∀ p ∈ create_voice_profiles avail, avail p.engine = true) ∧
    ((∀ e, avail e = false) →
      voiceEntriesOf (create_voice_profiles avail) avail = []) ∧
    (∀ en ∈ voiceEntriesOf (create_voice_profiles avail) avail,
      en.available = avail en.engine) := by
  refine ⟨create_voice_profiles_avail avail, ?_, ?_⟩
  · intro hall
    unfold voiceEntriesOf create_voice_profiles
    rw [if_neg (by simp [hall]), if_neg (by simp [hall]), if_neg (by simp [hall])]
    rfl
  · intro en hen
    rcases List.mem_map.mp hen with ⟨p, _, rfl⟩
    rfl

theorem spec_C3_amended_witness :
    (∀ e : String, (fun _ : String => false) e = false) ∧
    voiceEntriesOf (create_voice_profiles fun _ => false) (fun _ => false) = [] :=
  ⟨fun _ => rfl, (spec_C3_amended fun _ => false).2.1 fun _ => rfl⟩

/-- C6 fails as stated: in the fixed server the artifact name depends only
on the profile id, so two distinct narration calls (here: different texts)
with the same profile write to the same path in the shared scratch
directory. -/
theorem spec_C6_counterexample :
    narrate_pyttsx3_audio_file "/tmp/stories" "Story one"
      { id := "default_narrator", name := "Default Narrator", engine := "pyttsx3" } =
    narrate_pyttsx3_audio_file "/tmp/stories" "A different story"
      { id := "default_narrator", name := "Default Narrator", engine := "pyttsx3" } ∧
    "Story one" ≠ "A different story" :=
  ⟨rfl, by decide⟩

/-- C6 amended: the artifact path is `story_{profile.id}.wav` (pyttsx3) or
`story_{profile.id}.mp3` (gtts) in the scratch directory: it never depends
on the call's text, two calls agree on the path exactly when their
profiles share an id, and the two backends' paths never collide. -/
theorem spec_C6_amended (temp_dir t1 t2 : String) (p q : VoiceProfile) :
    (narrate_pyttsx3_audio_file temp_dir t1 p = narrate_pyttsx3_audio_file temp_dir t2 q
      ↔ p.id = q.id) ∧
    (narrate_gtts_audio_file temp_dir t1 p = narrate_gtts_audio_file temp_dir t2 q
      ↔ p.id = q.id) := by
  constructor
  · constructor
    · intro h
      exact append_mid_inj (temp_dir ++ "/") "story_" ".wav" h
    · intro h
      unfold narrate_pyttsx3_audio_file
      rw [h]
  · constructor
    · intro h
      exact append_mid_inj (temp_dir ++ "/") "story_" ".mp3" h
    · intro h
      unfold narrate_gtts_audio_file
      rw [h]
